import Mathlib

/-!
Shallow embedding of the clipster clipboard-manager daemon
(`src/clipster.py`), covering the parts the specification's claims are
about: the in-memory history store (`Clipster.Daemon.update_history`,
`owner_change`), history persistence (`read_history_file`,
`write_history_file`), the client-message protocol and dispatch
(`socket_listen`), the picker ordering (`selection_widget`), startup
checks (`prepare_files`) and shutdown (`exit`).
-/

namespace Clipster

/-- The two clipboard selections (keys of `self.boards`). -/
inductive Selection where
  | PRIMARY
  | CLIPBOARD
deriving DecidableEq, Repr

/-- In-memory history: `self.boards = {"PRIMARY": [], "CLIPBOARD": []}`,
a list of strings per selection, most-recent last. -/
structure Boards where
  primary : List String
  clipboard : List String
deriving DecidableEq, Repr

/-- Look up a selection's history list (`self.boards[board]`). -/
def Boards.get (b : Boards) : Selection → List String
  | .PRIMARY => b.primary
  | .CLIPBOARD => b.clipboard

/-- Replace a selection's history list (assignment to `self.boards[board]`). -/
def Boards.set (b : Boards) : Selection → List String → Boards
  | .PRIMARY, l => { b with primary := l }
  | .CLIPBOARD, l => { b with clipboard := l }

/-- `Daemon.update_history` on one board's list:
if `text in self.boards[board]: self.boards[board].remove(text)`
(Python `list.remove` deletes the first occurrence), then
`self.boards[board].append(text)`. -/
def update_history (l : List String) (text : String) : List String :=
  (if text ∈ l then l.erase text else l) ++ [text]

/-- The spec's `record(selection, text)` operation: the clipboard
change-notification path `owner_change` guards with `if text:` before
calling `update_history`, so empty text leaves history untouched. -/
def record (b : Boards) (sel : Selection) (text : String) : Boards :=
  if text = "" then b else b.set sel (update_history (b.get sel) text)

/-- A finite sequence of `record` calls, applied in order. -/
def recordAll (b : Boards) (calls : List (Selection × String)) : Boards :=
  calls.foldl (fun st p => record st p.1 p.2) b

/-- Both selections' history lists are duplicate-free. -/
def BoardsNodup (b : Boards) : Prop :=
  b.primary.Nodup ∧ b.clipboard.Nodup

instance : DecidablePred BoardsNodup := by
  unfold BoardsNodup; infer_instance

lemma get_set_same (b : Boards) (sel : Selection) (l : List String) :
    (b.set sel l).get sel = l := by
  cases sel <;> rfl

lemma record_get (b : Boards) (sel : Selection) {x : String} (hx : x ≠ "") :
    (record b sel x).get sel = update_history (b.get sel) x := by
  simp [record, hx, get_set_same]

/-- The list `update_history` prepends its appended `[text]` with
never contains `text`, provided the input list was duplicate-free. -/
lemma not_mem_dedup_part {l : List String} {t : String} (h : l.Nodup) :
    t ∉ (if t ∈ l then l.erase t else l) := by
  by_cases hm : t ∈ l
  · simpa [hm] using h.not_mem_erase
  · simp [hm]

/-- Core behaviour of `update_history` on a duplicate-free list:
the result holds `t` exactly once, at the tail, and stays duplicate-free. -/
lemma update_history_core {l : List String} (t : String) (h : l.Nodup) :
    (update_history l t).count t = 1 ∧
      (update_history l t).getLast? = some t ∧
      (update_history l t).Nodup := by
  have hpre : t ∉ (if t ∈ l then l.erase t else l) := not_mem_dedup_part h
  have hprend : (if t ∈ l then l.erase t else l).Nodup := by
    by_cases hm : t ∈ l
    · simpa [hm] using h.erase t
    · simpa [hm] using h
  refine ⟨?_, ?_, ?_⟩
  · simp [update_history, List.count_append, List.count_eq_zero.2 hpre]
  · simp [update_history]
  · have hd : List.Disjoint (if t ∈ l then l.erase t else l) [t] := by
      intro a ha hat
      rw [List.mem_singleton] at hat
      subst hat
      exact hpre ha
    simp only [update_history, List.nodup_append]
    exact ⟨hprend, List.nodup_singleton t, hd⟩

lemma record_primary (b : Boards) {t : String} (ht : t ≠ "") :
    record b .PRIMARY t = ⟨update_history b.primary t, b.clipboard⟩ := by
  simp [record, ht, Boards.set, Boards.get]

lemma record_clipboard (b : Boards) {t : String} (ht : t ≠ "") :
    record b .CLIPBOARD t = ⟨b.primary, update_history b.clipboard t⟩ := by
  simp [record, ht, Boards.set, Boards.get]

lemma record_preserves_nodup (b : Boards) (sel : Selection) (t : String)
    (h : BoardsNodup b) : BoardsNodup (record b sel t) := by
  by_cases ht : t = ""
  · simpa [record, ht] using h
  · obtain ⟨hp, hc⟩ := h
    cases sel
    · rw [record_primary b ht]
      exact ⟨(update_history_core (l := b.primary) t hp).2.2, hc⟩
    · rw [record_clipboard b ht]
      exact ⟨hp, (update_history_core (l := b.clipboard) t hc).2.2⟩

/-- A persisted history snapshot: the JSON object written by
`write_history_file` / read by `read_history_file`, as an ordered list
of key/value pairs (`Selection name ↦ sequence of strings`). -/
abbrev Snapshot := List (String × List String)

/-- One step of Python `dict.update`: a pair whose key names a selection
overwrites that selection's list; later pairs win over earlier ones. -/
def loadPair (b : Boards) (p : String × List String) : Boards :=
  if p.1 = "PRIMARY" then { b with primary := p.2 }
  else if p.1 = "CLIPBOARD" then { b with clipboard := p.2 }
  else b

/-- `read_history_file`'s `self.boards.update(json.load(hist_f))`:
fold the snapshot's pairs into the in-memory boards. -/
def load (snap : Snapshot) (b : Boards) : Boards :=
  snap.foldl loadPair b

/-- `write_history_file`'s `json.dump(self.boards, hist_f)`: serialize
the two-key mapping in its insertion order. -/
def dump (b : Boards) : Snapshot :=
  [("PRIMARY", b.primary), ("CLIPBOARD", b.clipboard)]

/-- The value associated with key `k` in the snapshot, the last pair
winning (as in Python's `dict.update` over the pairs in order). -/
def lookupLast (k : String) : Snapshot → Option (List String)
  | [] => none
  | p :: rest =>
    match lookupLast k rest with
    | some v => some v
    | none => if p.1 = k then some p.2 else none

lemma load_primary (snap : Snapshot) (b : Boards) :
    (load snap b).primary = (lookupLast "PRIMARY" snap).getD b.primary := by
  induction snap generalizing b with
  | nil => rfl
  | cons p rest ih =>
    obtain ⟨k, v⟩ := p
    rw [show load ((k, v) :: rest) b = load rest (loadPair b (k, v)) from rfl, ih]
    cases hrest : lookupLast "PRIMARY" rest with
    | some w => simp [lookupLast, hrest]
    | none =>
      by_cases hk : k = "PRIMARY"
      · subst hk; simp [lookupLast, hrest, loadPair]
      · by_cases hk2 : k = "CLIPBOARD"
        · subst hk2; simp [lookupLast, hrest, loadPair]
        · simp [lookupLast, hrest, hk, loadPair, hk2]

lemma load_clipboard (snap : Snapshot) (b : Boards) :
    (load snap b).clipboard = (lookupLast "CLIPBOARD" snap).getD b.clipboard := by
  induction snap generalizing b with
  | nil => rfl
  | cons p rest ih =>
    obtain ⟨k, v⟩ := p
    rw [show load ((k, v) :: rest) b = load rest (loadPair b (k, v)) from rfl, ih]
    cases hrest : lookupLast "CLIPBOARD" rest with
    | some w => simp [lookupLast, hrest]
    | none =>
      by_cases hk : k = "CLIPBOARD"
      · subst hk; simp [lookupLast, hrest, loadPair]
      · by_cases hk2 : k = "PRIMARY"
        · subst hk2; simp [lookupLast, hrest, loadPair, hk]
        · simp [lookupLast, hrest, hk, loadPair, hk2]

/-- Split a character list at the first occurrence of `c`:
`some (pre, post)` with `pre` the part before the first `c` and `post`
everything after it, or `none` when `c` does not occur. -/
def splitFirst (c : Char) : List Char → Option (List Char × List Char)
  | [] => none
  | x :: xs =>
    if x = c then some ([], xs)
    else
      match splitFirst c xs with
      | none => none
      | some (pre, post) => some (x :: pre, post)

/-- The triple produced by `sig, board, content = sent.split(':', 2)`:
split on the first two colons only, leaving the remainder intact.
`none` models the `ValueError` Python raises when unpacking fewer than
three parts, i.e. when the message has fewer than two colons. -/
def splitColon2 (s : List Char) : Option (List Char × List Char × List Char) :=
  match splitFirst ':' s with
  | none => none
  | some (sig, rest) =>
    match splitFirst ':' rest with
    | none => none
    | some (board, content) => some (sig, board, content)

lemma splitFirst_eq_none {c : Char} {l : List Char} (h : c ∉ l) :
    splitFirst c l = none := by
  induction l with
  | nil => rfl
  | cons x xs ih =>
    have hx : x ≠ c := fun hxc => h (hxc ▸ List.mem_cons_self x xs)
    have hxs : c ∉ xs := fun hm => h (List.mem_cons_of_mem x hm)
    simp [splitFirst, hx, ih hxs]

lemma splitFirst_append {c : Char} {pre : List Char} (post : List Char)
    (h : c ∉ pre) : splitFirst c (pre ++ c :: post) = some (pre, post) := by
  induction pre with
  | nil => simp [splitFirst]
  | cons x xs ih =>
    have hx : x ≠ c := fun hxc => h (hxc ▸ List.mem_cons_self x xs)
    have hxs : c ∉ xs := fun hm => h (List.mem_cons_of_mem x hm)
    simp [splitFirst, hx, ih hxs]

lemma splitFirst_structure {c : Char} {l pre post : List Char}
    (h : splitFirst c l = some (pre, post)) : l = pre ++ c :: post ∧ c ∉ pre := by
  induction l generalizing pre with
  | nil => simp [splitFirst] at h
  | cons x xs ih =>
    by_cases hx : x = c
    · subst hx
      simp [splitFirst] at h
      obtain ⟨h1, h2⟩ := h
      subst h1; subst h2
      exact ⟨rfl, List.not_mem_nil x⟩
    · simp only [splitFirst, if_neg hx] at h
      cases hxs : splitFirst c xs with
      | none => rw [hxs] at h; simp at h
      | some pq =>
        obtain ⟨p, q⟩ := pq
        rw [hxs] at h
        simp at h
        obtain ⟨h1, h2⟩ := h
        subst h1; subst h2
        obtain ⟨he, hm⟩ := ih hxs
        constructor
        · rw [he]; rfl
        · intro hmem
          rcases List.mem_cons.1 hmem with h | h
          · exact hx h.symm
          · exact hm h

/-- Fewer than two colons in the message makes the three-way unpack fail. -/
lemma splitColon2_eq_none {s : List Char} (h : s.count ':' < 2) :
    splitColon2 s = none := by
  unfold splitColon2
  cases h1 : splitFirst ':' s with
  | none => rfl
  | some pr =>
    obtain ⟨sig, rest⟩ := pr
    obtain ⟨hs, hns⟩ := splitFirst_structure h1
    cases h2 : splitFirst ':' rest with
    | none => simp [h2]
    | some pr2 =>
      obtain ⟨board, content⟩ := pr2
      obtain ⟨hr, hnb⟩ := splitFirst_structure h2
      exfalso
      rw [hs, hr] at h
      simp [List.count_append, List.count_cons, List.count_eq_zero.2 hns,
        List.count_eq_zero.2 hnb] at h
      omega

/-- A well-formed message `SIG:BOARD:CONTENT` (no colon in `SIG` or
`BOARD`) unpacks to exactly that triple, with `CONTENT` left unsplit. -/
lemma splitColon2_append {sig board : List Char} (content : List Char)
    (hs : ':' ∉ sig) (hb : ':' ∉ board) :
    splitColon2 (sig ++ ':' :: (board ++ ':' :: content))
      = some (sig, board, content) := by
  unfold splitColon2
  rw [splitFirst_append (board ++ ':' :: content) hs]
  simp [splitFirst_append content hb]

/-- Exceptions the message-handling path of `socket_listen` can raise:
`valueError` from the three-way unpack of `sent.split(':', 2)`,
`keyError` from `self.boards[board]` with an unknown key,
`attributeError` from `getattr(self, board.lower())` with an unknown
attribute name. -/
inductive PyError where
  | valueError
  | keyError
  | attributeError
deriving DecidableEq, Repr

/-- The side effect a dispatched message requests from the external
collaborators: `widget entries` is `selection_widget`'s picker window
with its list-store rows in order, `setBoard` is `update_board`'s
`set_text` on the chosen clipboard. -/
inductive Effect where
  | widget (entries : List String)
  | setBoard (sel : Selection) (content : List Char)
deriving DecidableEq, Repr

/-- How one `socket_listen` invocation ends: `ok` means the handler ran
to completion — `conn.close()` executed and `True` returned to the event
loop — optionally having requested an effect; `raised` means an uncaught
exception left the handler before `conn.close()`. -/
inductive Outcome where
  | ok (effect : Option Effect)
  | raised (e : PyError)
deriving DecidableEq, Repr

/-- `self.boards[board]`: dictionary lookup by exact key, `none` models
`KeyError`. -/
def parseSelection (s : List Char) : Option Selection :=
  if s = "PRIMARY".data then some .PRIMARY
  else if s = "CLIPBOARD".data then some .CLIPBOARD
  else none

/-- `getattr(self, board.lower())`: attribute lookup after lowercasing,
`none` models `AttributeError`. -/
def parseAttr (s : List Char) : Option Selection :=
  if s.map Char.toLower = "primary".data then some .PRIMARY
  else if s.map Char.toLower = "clipboard".data then some .CLIPBOARD
  else none

/-- `selection_widget`'s list-store fill:
`for item in self.boards[board][::-1]: model.append([item])`. -/
def buildModel (hist : List String) : List String :=
  hist.reverse.foldl (fun m item => m ++ [item]) []

/-- The message-handling tail of `socket_listen`, once the receive loop
has accumulated `sent` (the UTF-8 decoded concatenation of the received
chunks; the chunk list `data` is non-empty exactly when `sent` is):
`if data:` parse and dispatch, then `conn.close()` and `return True`. -/
def socket_listen (b : Boards) (sent : List Char) : Outcome :=
  if sent = [] then .ok none
  else
    match splitColon2 sent with
    | none => .raised .valueError
    | some (sig, board, content) =>
      if sig = "SELECT".data then
        match parseSelection board with
        | some sel => .ok (some (.widget (buildModel (b.get sel))))
        | none => .raised .keyError
      else if sig = "BOARD".data then
        if content ≠ [] then
          match parseAttr board with
          | some sel => .ok (some (.setBoard sel content))
          | none => .raised .attributeError
        else .ok none
      else .ok none

/-- The selection's key in the `boards` dictionary. -/
def selName : Selection → String
  | .PRIMARY => "PRIMARY"
  | .CLIPBOARD => "CLIPBOARD"

lemma buildModel_eq_reverse (hist : List String) :
    buildModel hist = hist.reverse := by
  have h : ∀ (l acc : List String),
      l.foldl (fun m item => m ++ [item]) acc = acc ++ l := by
    intro l
    induction l with
    | nil => intro acc; simp
    | cons x xs ih => intro acc; simp [List.foldl, ih]
  simp [buildModel, h]

lemma parseSelection_selName (sel : Selection) :
    parseSelection (selName sel).data = some sel := by
  cases sel <;> rfl

lemma colon_not_mem_selName (sel : Selection) : ':' ∉ (selName sel).data := by
  cases sel <;> decide

/-- `true` when the handler ran to completion (reached `conn.close()` and
`return True`), `false` when an exception escaped it. -/
def Outcome.completes : Outcome → Bool
  | .ok _ => true
  | .raised _ => false

/-- Observable steps of the shutdown path `Daemon.exit`, in the order the
code performs them. -/
inductive ExitEvent where
  | unlinkSocket
  | unlinkPid
  | writeHistory
  | exitCode (n : Nat)
deriving DecidableEq, BEq, Repr

/-- The filesystem/process state the daemon lifecycle touches:
whether the socket file exists and is bound, the PID file's contents
(`none` when absent), the history file's contents (`none` when absent),
which PIDs belong to live processes, a log of shutdown steps, and the
process exit code once `sys.exit` has run. -/
structure SysState where
  socketFileExists : Bool
  socketBound : Bool
  pidFile : Option Nat
  histFile : Option Snapshot
  livePids : List Nat
  log : List ExitEvent
  exited : Option Nat
deriving DecidableEq, Repr

/-- A quiescent state: no files, no live peers, nothing logged. -/
def initState : SysState :=
  { socketFileExists := false, socketBound := false, pidFile := none,
    histFile := none, livePids := [], log := [], exited := none }

/-- The part of `prepare_files` after the stale-PID check: write our PID
to the PID file, create the clipster directory, read in the history file
(absence is not an error), unlink any stale socket file, then create,
bind and listen on a fresh socket. -/
def prepare_files_tail (ownPid : Nat) (b : Boards) (s : SysState) :
    Boards × SysState :=
  let s1 := { s with pidFile := some ownPid }
  let b1 := match s1.histFile with
    | some snap => load snap b
    | none => b
  let s2 := { s1 with socketFileExists := false }
  (b1, { s2 with socketFileExists := true, socketBound := true })

/-- `Daemon.prepare_files`: if a PID file exists and names a live process
(`os.kill(pid, 0)` does not raise), print "Daemon already running" and
`sys.exit(1)` — modelled as `Except.error (1, s)` carrying the untouched
state; if the named PID is dead, remove the stale PID file and continue;
if no PID file exists, continue. -/
def prepare_files (ownPid : Nat) (b : Boards) (s : SysState) :
    Except (Nat × SysState) (Boards × SysState) :=
  match s.pidFile with
  | some pid =>
    if pid ∈ s.livePids then Except.error (1, s)
    else Except.ok (prepare_files_tail ownPid b { s with pidFile := none })
  | none => Except.ok (prepare_files_tail ownPid b s)

/-- `Daemon.exit`, the termination-signal handler, in source order:
best-effort `os.unlink` of the socket file, best-effort `os.unlink` of
the PID file, `write_history_file()`, then `sys.exit(0)`. -/
def daemon_exit (b : Boards) (s : SysState) : SysState :=
  let s1 := { s with socketFileExists := false,
                     log := s.log ++ [ExitEvent.unlinkSocket] }
  let s2 := { s1 with pidFile := none, log := s1.log ++ [ExitEvent.unlinkPid] }
  let s3 := { s2 with histFile := some (dump b),
                      log := s2.log ++ [ExitEvent.writeHistory] }
  { s3 with exited := some 0, log := s3.log ++ [ExitEvent.exitCode 0] }

end Clipster

namespace Clipster

/-- C1: recording the same non-empty text twice on a duplicate-free
history leaves it present exactly once, at the tail. -/
theorem record_twice_once_at_tail (b : Boards) (sel : Selection) (x : String)
    (hx : x ≠ "") (h : (b.get sel).Nodup) :
    ((record (record b sel x) sel x).get sel).count x = 1 ∧
      ((record (record b sel x) sel x).get sel).getLast? = some x := by
  have h1 : (record b sel x).get sel = update_history (b.get sel) x :=
    record_get b sel hx
  have hnd1 : ((record b sel x).get sel).Nodup := by
    rw [h1]; exact (update_history_core x h).2.2
  have h2 : (record (record b sel x) sel x).get sel
      = update_history ((record b sel x).get sel) x :=
    record_get (record b sel x) sel hx
  rw [h2]
  exact ⟨(update_history_core x hnd1).1, (update_history_core x hnd1).2.1⟩

/-- C1 witness: with `PRIMARY` history `["a"]`, recording `"b"` twice
leaves `"b"` exactly once, at the tail. -/
theorem record_twice_once_at_tail_apply :
    ((record (record ⟨["a"], []⟩ .PRIMARY "b") .PRIMARY "b").get .PRIMARY).count "b" = 1 ∧
      ((record (record ⟨["a"], []⟩ .PRIMARY "b") .PRIMARY "b").get .PRIMARY).getLast?
        = some "b" :=
  record_twice_once_at_tail ⟨["a"], []⟩ .PRIMARY "b" (by decide) (by decide)

/-- C6: starting from duplicate-free histories, any finite sequence of
`record` calls leaves every selection's history duplicate-free. -/
theorem recordAll_preserves_nodup (calls : List (Selection × String)) (b : Boards)
    (h : BoardsNodup b) : BoardsNodup (recordAll b calls) := by
  induction calls generalizing b with
  | nil => exact h
  | cons p rest ih =>
    exact ih (record b p.1 p.2) (record_preserves_nodup b p.1 p.2 h)

/-- C6 witness: a concrete run of `record` calls from empty histories
keeps both histories duplicate-free. -/
theorem recordAll_preserves_nodup_apply :
    BoardsNodup (recordAll ⟨[], []⟩
      [(.PRIMARY, "a"), (.CLIPBOARD, "x"), (.PRIMARY, "b"),
       (.PRIMARY, "a"), (.PRIMARY, ""), (.CLIPBOARD, "x")]) :=
  recordAll_preserves_nodup
    [(.PRIMARY, "a"), (.CLIPBOARD, "x"), (.PRIMARY, "b"),
     (.PRIMARY, "a"), (.PRIMARY, ""), (.CLIPBOARD, "x")]
    ⟨[], []⟩ (by decide)

/-- C7: recording the empty string is a no-op (`owner_change` only calls
`update_history` under `if text:`). -/
theorem record_empty_noop (b : Boards) (sel : Selection) :
    record b sel "" = b := by
  simp [record]

/-- C5: loading the snapshot produced by `dump` restores exactly the
dumped state: `load (dump b)` is the identity on history state. -/
theorem load_dump_id (b : Boards) : load (dump b) b = b := by
  cases b
  simp [load, dump, loadPair, List.foldl]

/-- C10: `read_history_file` merges rather than replaces: a selection key
present in the snapshot (last pair winning, as with `dict.update`) ends
with exactly the snapshot's sequence, and a selection key absent from the
snapshot keeps the previous in-memory sequence (`Option.getD` covers both
cases at once). -/
theorem load_merges (snap : Snapshot) (b : Boards) :
    (load snap b).primary = (lookupLast "PRIMARY" snap).getD b.primary ∧
      (load snap b).clipboard = (lookupLast "CLIPBOARD" snap).getD b.clipboard :=
  ⟨load_primary snap b, load_clipboard snap b⟩

/-- C4: decoding splits on the first two colons only — a message
`ACTION:SELECTION:CONTENT` with colon-free action and selection yields
exactly that triple with the content unsplit — and any string with fewer
than two colons fails to decode. -/
theorem splitColon2_spec :
    (∀ action sel content : List Char, ':' ∉ action → ':' ∉ sel →
      splitColon2 (action ++ ':' :: (sel ++ ':' :: content))
        = some (action, sel, content)) ∧
    (∀ s : List Char, s.count ':' < 2 → splitColon2 s = none) :=
  ⟨fun _ _ content ha hs => splitColon2_append content ha hs,
   fun _ h => splitColon2_eq_none h⟩

/-- C4 witness: `"BOARD:PRIMARY:hello:world"` decodes to
`(BOARD, PRIMARY, "hello:world")`, and `"BOARD"` fails to decode. -/
theorem splitColon2_spec_apply :
    splitColon2 "BOARD:PRIMARY:hello:world".data
        = some ("BOARD".data, "PRIMARY".data, "hello:world".data) ∧
      splitColon2 "BOARD".data = none := by
  constructor
  · have h := splitColon2_spec.1 "BOARD".data "PRIMARY".data "hello:world".data
      (by decide) (by decide)
    have e : "BOARD:PRIMARY:hello:world".data
        = "BOARD".data ++ ':' :: ("PRIMARY".data ++ ':' :: "hello:world".data) := by
      decide
    rw [e]
    exact h
  · exact splitColon2_spec.2 "BOARD".data (by decide)

/-- C3 counterexample: on the non-empty payload `"BOARD"` (no colons),
`socket_listen` does not complete — the unpacking of
`sent.split(':', 2)` raises `ValueError`, so `conn.close()` is never
reached and the handler does not return `True` — contradicting the claim
that the connection is silently dropped (closed) and the dispatch loop
keeps running. -/
theorem malformed_not_silently_dropped :
    socket_listen ⟨["a"], []⟩ "BOARD".data = .raised .valueError ∧
      (socket_listen ⟨["a"], []⟩ "BOARD".data).completes = false := by
  constructor <;> rfl

/-- C3 amended: on every non-empty payload with fewer than two colons,
`socket_listen` raises an uncaught `ValueError` out of the handler: no
reply is sent and history is not mutated, but the connection is not
closed by the handler and the handler does not return normally to the
dispatch loop. -/
theorem malformed_message_raises (b : Boards) (sent : List Char)
    (hne : sent ≠ []) (h : sent.count ':' < 2) :
    socket_listen b sent = .raised .valueError := by
  unfold socket_listen
  rw [if_neg hne, splitColon2_eq_none h]

/-- C3 witness: the one-colon payload `"SELECT:"` raises. -/
theorem malformed_message_raises_apply :
    socket_listen ⟨[], []⟩ "SELECT:".data = .raised .valueError :=
  malformed_message_raises ⟨[], []⟩ "SELECT:".data (by decide) (by decide)

/-- C9: a `SELECT` message for a selection hands the picker that
selection's stored history reversed (most-recent-first): the list-store
rows are exactly `(history).reverse`. -/
theorem select_dispatch_reversed (b : Boards) (sel : Selection)
    (content : List Char) :
    socket_listen b ("SELECT".data ++ ':' :: ((selName sel).data ++ ':' :: content))
      = .ok (some (.widget ((b.get sel).reverse))) := by
  have hd := @splitColon2_append "SELECT".data (selName sel).data content
    (by decide) (colon_not_mem_selName sel)
  have hne : "SELECT".data ++ ':' :: ((selName sel).data ++ ':' :: content) ≠ [] := by
    simp [show "SELECT".data = ['S', 'E', 'L', 'E', 'C', 'T'] from rfl]
  unfold socket_listen
  rw [if_neg hne, hd]
  simp [parseSelection_selName, buildModel_eq_reverse]

/-- C8: when the PID file names a live process, `prepare_files` exits
with code 1 and the whole state — socket file, history file, existing
PID file — is returned exactly as it was: no side effect happened. -/
theorem prepare_live_pid_fatal (ownPid : Nat) (b : Boards) (s : SysState)
    (pid : Nat) (hp : s.pidFile = some pid) (hl : pid ∈ s.livePids) :
    prepare_files ownPid b s = Except.error (1, s) := by
  unfold prepare_files
  rw [hp]
  simp [hl]

/-- C8 witness: a PID file naming live process 42 aborts startup with
exit code 1 and an unchanged state. -/
theorem prepare_live_pid_fatal_apply :
    prepare_files 7 ⟨[], []⟩
        { initState with pidFile := some 42, livePids := [42] }
      = Except.error (1, { initState with pidFile := some 42, livePids := [42] }) :=
  prepare_live_pid_fatal 7 ⟨[], []⟩
    { initState with pidFile := some 42, livePids := [42] } 42 rfl (by decide)

/-- C2 counterexample: in `Daemon.exit`'s actual step log the history
write sits at index 2, after the socket-file removal (index 0) and the
PID-file removal (index 1) — the code removes both files first and only
then persists history, refuting the claimed persist-then-remove order. -/
theorem exit_order_cex :
    (daemon_exit ⟨["a"], []⟩ initState).log
        = [.unlinkSocket, .unlinkPid, .writeHistory, .exitCode 0] ∧
      (daemon_exit ⟨["a"], []⟩ initState).log.indexOf ExitEvent.writeHistory = 2 ∧
      (daemon_exit ⟨["a"], []⟩ initState).log.indexOf ExitEvent.unlinkSocket = 0 ∧
      (daemon_exit ⟨["a"], []⟩ initState).log.indexOf ExitEvent.unlinkPid = 1 := by
  refine ⟨rfl, rfl, rfl, rfl⟩

/-- C2 amended: on a termination signal the daemon first removes the
socket file, then the PID file (both best-effort), then persists the
current history to the snapshot file, and then exits with a success
code — in that order. -/
theorem exit_behavior (b : Boards) (s : SysState) (hlog : s.log = []) :
    (daemon_exit b s).log
        = [.unlinkSocket, .unlinkPid, .writeHistory, .exitCode 0] ∧
      (daemon_exit b s).histFile = some (dump b) ∧
      (daemon_exit b s).socketFileExists = false ∧
      (daemon_exit b s).pidFile = none ∧
      (daemon_exit b s).exited = some 0 := by
  simp [daemon_exit, hlog]

/-- C2 witness: the shutdown steps from a concrete state. -/
theorem exit_behavior_apply :
    (daemon_exit ⟨["a"], ["b"]⟩ initState).log
        = [.unlinkSocket, .unlinkPid, .writeHistory, .exitCode 0] ∧
      (daemon_exit ⟨["a"], ["b"]⟩ initState).histFile = some (dump ⟨["a"], ["b"]⟩) ∧
      (daemon_exit ⟨["a"], ["b"]⟩ initState).socketFileExists = false ∧
      (daemon_exit ⟨["a"], ["b"]⟩ initState).pidFile = none ∧
      (daemon_exit ⟨["a"], ["b"]⟩ initState).exited = some 0 :=
  exit_behavior ⟨["a"], ["b"]⟩ initState rfl

end Clipster
